import Mathlib

/-!
Shallow embedding of the twiix feed pipeline and its backend stores.

The definitions below are translated from the repository source:
* the TikTok-style feed component (seen tracking, media filter, pagination)
  in `src/unnamed/part_005`, lines 1023–1258;
* the fetch utilities `debouncedFetch` and `exponentialBackoff` in
  `src/src/utils/apiUtils.js`;
* the Express route handlers (rate limiter, likes upsert, seen batch upsert)
  in `src/server/routes/api.js`.

Machine state is modelled as explicit records, asynchronous effects as
events applied to the state, and the Mongo collections as lists of records
with the exact update semantics of the calls the handlers make
(`updateOne` with `$set` + upsert, `bulkWrite` of `$setOnInsert` upserts).
-/

/-- Character-list helper: `matchStart s pat` is true when `pat` is an
initial segment of `s` (used to embed the JS `String.endsWith` /
`String.includes` / regex-anchor tests on URLs). -/
def matchStart : List Char → List Char → Bool
  | _, [] => true
  | [], _ :: _ => false
  | c :: s, p :: ps => c == p && matchStart s ps

/-- Character-list helper: `containsSeq s pat` is true when `pat` occurs as a
contiguous subsequence of `s` (the JS `String.includes`). -/
def containsSeq : List Char → List Char → Bool
  | [], pat => matchStart [] pat
  | c :: s, pat => matchStart (c :: s) pat || containsSeq s pat

/-- JS `s.endsWith(pat)`. -/
def strEndsWith (s pat : String) : Bool :=
  matchStart s.data.reverse pat.data.reverse

/-- Case-insensitive suffix test, embedding the `/…$/i` anchor of the image
extension regex in `src/unnamed/part_005` line 1174 (the pattern letters are
already lower case, so lowering the subject suffices). -/
def strEndsWithCI (s pat : String) : Bool :=
  matchStart (s.data.map Char.toLower).reverse pat.data.reverse

/-- JS `s.includes(pat)`. -/
def strContains (s pat : String) : Bool :=
  containsSeq s.data pat.data

/-- One Reddit post's `data` object, restricted to the fields the feed
pipeline inspects.  Fields that the code only tests for truthiness
(`gallery_data`, `media_metadata`, `media && media.reddit_video`,
`preview?.reddit_video_preview?.fallback_url`) are modelled as the Bool
outcome of that truthiness test. -/
structure PostData where
  id : String
  is_gallery : Bool
  gallery_data : Bool
  media_metadata : Bool
  is_video : Bool
  post_hint : Option String
  media_reddit_video : Bool
  preview_fallback : Bool
  url : Option String
  author : String
deriving DecidableEq

/-- JS truthiness of an optional string (`undefined`/`null` and `""` are
falsy). -/
def optTruthy : Option String → Bool
  | none => false
  | some s => !s.isEmpty

/-- Truthiness-guarded URL test: the JS pattern `data.url && p(data.url)`. -/
def urlTest (u : Option String) (p : String → Bool) : Bool :=
  match u with
  | none => false
  | some s => !s.isEmpty && p s

/-- The image-extension regex `\.(jpeg|jpg|gif|png|webp)$/i` of
`src/unnamed/part_005` line 1174. -/
def imageExt (u : String) : Bool :=
  strEndsWithCI u ".jpeg" || strEndsWithCI u ".jpg" || strEndsWithCI u ".gif" ||
    strEndsWithCI u ".png" || strEndsWithCI u ".webp"

/-- The media filter predicate of `fetchMemes`, `src/unnamed/part_005`
lines 1148–1190: keep galleries (with gallery data and metadata), hosted and
rich videos, image-hinted posts, direct image URLs, `.gifv`, and
`.mp4`/`.webm` URLs; everything else (text posts, plain links, documents) is
dropped. -/
def isDisplayable (d : PostData) : Bool :=
  (d.is_gallery && d.gallery_data && d.media_metadata) ||
  (d.is_video || d.post_hint == some "hosted:video" || d.media_reddit_video) ||
  (d.post_hint == some "rich:video" && d.preview_fallback) ||
  (d.post_hint == some "image") ||
  urlTest d.url imageExt ||
  urlTest d.url (fun u => strContains u ".gifv") ||
  urlTest d.url (fun u => strEndsWith u ".mp4" || strEndsWith u ".webm")

/-- One page of the Content Source response: `response.data.children`
(each child's `data`) and the pagination cursor `response.data.after`. -/
structure Listing where
  children : List PostData
  after : Option String
deriving DecidableEq

/-- State of one `TikTokFeed` component instance, `src/unnamed/part_005`
lines 1024–1036: the loaded posts, active index, in-flight flag, cursor,
has-more flag, the seen-id set (`seenIdsRef`), and the pending batch of
newly seen ids (`pendingSeenRef`). -/
structure FeedState where
  memes : List PostData
  currentIndex : Nat
  isLoading : Bool
  after : Option String
  hasMore : Bool
  seenIds : List String
  pendingSeen : List String
deriving DecidableEq

/-- Mount-time state of the feed (`useState` initialisers plus the reset
effect at lines 1212–1217). -/
def initialFeedState : FeedState :=
  { memes := [], currentIndex := 0, isLoading := false, after := none,
    hasMore := true, seenIds := [], pendingSeen := [] }

/-- The seen-id subtraction of `fetchMemes`, line 1193:
`filteredMemes.filter(meme => !seenSet.has(meme.data.id))`. -/
def unseenFilter (seen : List String) (ms : List PostData) : List PostData :=
  ms.filter (fun m => !(seen.contains m.id))

/-- A completed successful `fetchMemes` call (`src/unnamed/part_005` lines
1120–1205, success path): dropped when a fetch is already in flight;
otherwise the raw children are filtered by `isDisplayable`, ids present in
the seen set are subtracted, the remainder is appended to `memes`, the
cursor is stored, and `hasMore` becomes the truthiness of the response
cursor (`setHasMore(!!response.data.after)`). -/
def fetchMemesSuccess (s : FeedState) (resp : Listing) : FeedState :=
  if s.isLoading then s
  else
    { s with
      memes := s.memes ++ unseenFilter s.seenIds (resp.children.filter isDisplayable),
      after := resp.after,
      hasMore := optTruthy resp.after,
      isLoading := false }

/-- A completed failed `fetchMemes` call (lines 1199–1204): the catch block
only logs, the finally block clears the loading flag; memes, cursor,
has-more and seen state are untouched.  The error value itself is not
inspected, so a 429 failure and any other failure produce the same state. -/
def fetchMemesFailure (s : FeedState) : FeedState :=
  if s.isLoading then s else { s with isLoading := false }

/-- The load-more guard of the effect at lines 1221–1225:
`currentIndex >= memes.length - 3 && hasMore && !isLoading` (JS integer
arithmetic, so `i ≥ n - 3` is `i + 3 ≥ n`). -/
def loadMoreCond (s : FeedState) : Bool :=
  decide (s.memes.length ≤ s.currentIndex + 3) && s.hasMore && !s.isLoading

/-- The mark-seen effect at lines 1227–1243: when the active meme exists and
its id is truthy and not yet in the seen set, the id is added to the seen
set and queued for the backend flush; otherwise nothing changes. -/
def markActiveStep (s : FeedState) : FeedState :=
  match s.memes[s.currentIndex]? with
  | none => s
  | some m =>
    if m.id.isEmpty then s
    else if s.seenIds.contains m.id then s
    else { s with seenIds := s.seenIds ++ [m.id],
                  pendingSeen := s.pendingSeen ++ [m.id] }

/-- Completion of the signed-in `loadSeenIds` database read (lines
1066–1069): the backend id set overwrites the local seen set, no merge. -/
def seenLoadedStep (s : FeedState) (backendIds : List String) : FeedState :=
  { s with seenIds := backendIds }

/-- Asynchronous completions that mutate the feed state.  `fetchOk` and
`fetchFail` are the two outcomes of a `fetchMemes` call; `seenLoaded` is the
completion of the signed-in `loadSeenIds` read; `activeChanged` is the
mark-seen effect firing for the current index. -/
inductive FeedEvent where
  | fetchOk (resp : Listing)
  | fetchFail
  | seenLoaded (ids : List String)
  | activeChanged
deriving DecidableEq

/-- Apply one completion event to the feed state. -/
def feedStep (s : FeedState) : FeedEvent → FeedState
  | .fetchOk resp => fetchMemesSuccess s resp
  | .fetchFail => fetchMemesFailure s
  | .seenLoaded ids => seenLoadedStep s ids
  | .activeChanged => markActiveStep s

/-- Run a sequence of completion events. -/
def runFeedEvents (s : FeedState) (es : List FeedEvent) : FeedState :=
  es.foldl feedStep s

/-- The auto-pagination loop: the load-more effect keeps issuing
`fetchMemes(after)` while `hasMore` holds, consuming the Content Source's
page sequence in order; once `hasMore` is false no further fetch is
issued. -/
def runPagination : FeedState → List Listing → FeedState
  | s, [] => s
  | s, r :: rs => if s.hasMore then runPagination (fetchMemesSuccess s r) rs else s

/-- The status check inside `debouncedFetch` (`src/src/utils/apiUtils.js`
lines 36–51): HTTP 429 throws a dedicated rate-limited error, any other
non-2xx status throws a generic HTTP error, a 2xx response is returned.
There is no cooldown state — the function only throws. -/
inductive FetchErr where
  | rateLimited
  | httpError (status : Nat)
deriving DecidableEq

/-- Outcome of `debouncedFetch` as a function of the response status
(`response.ok` is status 200–299). -/
def debouncedFetchCheck (status : Nat) : Option FetchErr :=
  if status == 429 then some .rateLimited
  else if status < 200 || 299 < status then some (.httpError status)
  else none

/-- The retry loop of `exponentialBackoff` (`src/src/utils/apiUtils.js`
lines 117–139), parameterised by the outcome of each attempt (attempt
indices start at 0) and by the jitter drawn before each sleep.  Returns the
final result, the number of attempts actually made, and the list of delays
slept.  The loop runs `i` from 0 to `maxRetries` inclusive; `rem` counts
the remaining iterations after the current one. -/
def backoffGo {E A : Type} (outcomes : Nat → Except E A) (baseDelay : Nat)
    (jitter : Nat → Nat) : Nat → Nat → Except E A × Nat × List Nat
  | i, rem =>
    match outcomes i with
    | .ok v => (.ok v, i + 1, [])
    | .error e =>
      match rem with
      | 0 => (.error e, i + 1, [])
      | Nat.succ rem2 =>
        let d := baseDelay * 2 ^ i + jitter i
        let r := backoffGo outcomes baseDelay jitter (i + 1) rem2
        (r.1, r.2.1, d :: r.2.2)

/-- `exponentialBackoff(fn, maxRetries, baseDelay)` with the given attempt
outcomes and jitter draws. -/
def exponentialBackoff {E A : Type} (outcomes : Nat → Except E A)
    (maxRetries baseDelay : Nat) (jitter : Nat → Nat) : Except E A × Nat × List Nat :=
  backoffGo outcomes baseDelay jitter 0 maxRetries

/-- The per-client sliding-window rate limiter `isRateLimited`
(`src/server/routes/api.js` lines 16–32).  Input: the current time and the
client's stored timestamp list; output: the deny decision and the list
stored back (on denial the map is not updated, on allowal the pruned list
plus the current time is stored). -/
def isRateLimited (now : Int) (clientRequests : List Int) : Bool × List Int :=
  let recentRequests := clientRequests.filter (fun t => now - t < 60000)
  if 30 ≤ recentRequests.length then (true, clientRequests)
  else (false, recentRequests ++ [now])

/-- A liked meme as sent by the client: a top-level `id`, an optional
nested `data` object carrying its own `id`, and the rest of the snapshot
payload.  `hasData` is the truthiness of `meme.data`. -/
structure MemeObj where
  id : Option String
  hasData : Bool
  dataId : Option String
  payload : String
deriving DecidableEq

/-- The id extraction of the likes handlers
(`src/server/routes/api.js` line 584, `src/api/likes.js` line 34):
`meme.id || (meme.data && meme.data.id)`, with JS truthiness, normalised to
`none` whenever the JS value is falsy. -/
def memeIdOf (m : MemeObj) : Option String :=
  if optTruthy m.id then m.id
  else if m.hasData then
    if optTruthy m.dataId then m.dataId else none
  else none

/-- One document of the `likes` collection. -/
structure LikeRecord where
  userId : String
  memeId : String
  memeData : MemeObj
  createdAt : Nat
deriving DecidableEq

/-- `likesCollection.updateOne({userId, memeId}, {$set: {…}}, {upsert:true})`
(`src/server/routes/api.js` lines 594–605): replace the first document
matching the key with the new field values, or append a new document when
no match exists. -/
def updateOneLike : List LikeRecord → String → String → MemeObj → Nat → List LikeRecord
  | [], u, mid, meme, now => [⟨u, mid, meme, now⟩]
  | r :: rs, u, mid, meme, now =>
    if r.userId == u && r.memeId == mid then ⟨u, mid, meme, now⟩ :: rs
    else r :: updateOneLike rs u mid meme now

/-- The `POST /likes` handler (`src/server/routes/api.js` lines 576–612;
`src/api/likes.js` lines 27–50 is line-for-line the same logic): missing or
falsy `userId`, missing `meme`, or an undeterminable meme id short-circuit
to HTTP 400 before the collection is touched; otherwise the like is
upserted and the handler answers 200. -/
def handleLikesPost (coll : List LikeRecord) (userId : Option String)
    (meme : Option MemeObj) (now : Nat) : Nat × List LikeRecord :=
  if !optTruthy userId || meme.isNone then (400, coll)
  else
    match userId, meme with
    | some u, some m =>
      match memeIdOf m with
      | none => (400, coll)
      | some mid => (200, updateOneLike coll u mid m now)
    | _, _ => (400, coll)

/-- One document of the `seen_memes` collection. -/
structure SeenRecord where
  userId : String
  feedKey : String
  memeId : String
  createdAt : Nat
deriving DecidableEq

/-- Key match for a seen record. -/
def seenKeyMatch (u fk mid : String) (r : SeenRecord) : Bool :=
  r.userId == u && r.feedKey == fk && r.memeId == mid

/-- One `updateOne` operation of the seen batch
(`src/server/routes/api.js` lines 659–665): filter on
`{userId, feedKey, memeId}`, update `$setOnInsert` with upsert — when a
document matches, `$setOnInsert` applies nothing and the collection is
unchanged; when none matches, a new document is inserted. -/
def setOnInsertSeen (coll : List SeenRecord) (u fk mid : String) (now : Nat) :
    List SeenRecord :=
  if coll.any (seenKeyMatch u fk mid) then coll
  else coll ++ [⟨u, fk, mid, now⟩]

/-- The `POST /seen` bulk write (`src/server/routes/api.js` lines 649–668):
one independent `$setOnInsert` upsert per id in the batch. -/
def upsertSeenBatch (coll : List SeenRecord) (u fk : String)
    (memeIds : List String) (now : Nat) : List SeenRecord :=
  memeIds.foldl (fun c mid => setOnInsertSeen c u fk mid now) coll

/-- Sample image post (Scenario A of the spec): `post_hint === 'image'`. -/
def p1img : PostData :=
  { id := "p1", is_gallery := false, gallery_data := false, media_metadata := false,
    is_video := false, post_hint := some "image", media_reddit_video := false,
    preview_fallback := false, url := none, author := "a1" }

/-- Sample text post: no gallery, no video fields, no image hint, and a
plain article URL that matches none of the media URL tests. -/
def p2text : PostData :=
  { id := "p2", is_gallery := false, gallery_data := false, media_metadata := false,
    is_video := false, post_hint := none, media_reddit_video := false,
    preview_fallback := false, url := some "https://example.com/article", author := "a2" }

/-- Sample video post: `is_video` set. -/
def p3vid : PostData :=
  { id := "p3", is_gallery := false, gallery_data := false, media_metadata := false,
    is_video := true, post_hint := none, media_reddit_video := false,
    preview_fallback := false, url := none, author := "a3" }

/-- Second sample image post. -/
def p4img : PostData :=
  { id := "p4", is_gallery := false, gallery_data := false, media_metadata := false,
    is_video := false, post_hint := some "image", media_reddit_video := false,
    preview_fallback := false, url := none, author := "a4" }

/-- Feed state after one successful first-page fetch of `[p1img]` with
cursor `"c1"`: one loaded post, `hasMore` true, not loading. -/
def readyState : FeedState :=
  fetchMemesSuccess initialFeedState { children := [p1img], after := some "c1" }

/-- Claim C4: each fetched page is filtered to displayable media, then the
posts whose ids are in the seen set are removed, and the remainder is
appended in order to the loaded list; concretely a first page
`[p1(image), p2(text), p3(video)]` yields `[p1, p3]`, and `[p3]` only when
`p1` is already in the seen-id set. -/
theorem fetch_filters_then_subtracts_seen :
    (∀ (s : FeedState) (l : Listing), s.isLoading = false →
      (fetchMemesSuccess s l).memes =
        s.memes ++ (l.children.filter isDisplayable).filter
          (fun p => !(s.seenIds.contains p.id)))
    ∧ (∀ (s : FeedState) (l : Listing) (p : PostData), s.isLoading = false →
        (p ∈ (fetchMemesSuccess s l).memes ↔
          p ∈ s.memes ∨ (p ∈ l.children ∧ isDisplayable p = true ∧
            s.seenIds.contains p.id = false)))
    ∧ (fetchMemesSuccess initialFeedState
        { children := [p1img, p2text, p3vid], after := some "c1" }).memes = [p1img, p3vid]
    ∧ (fetchMemesSuccess { initialFeedState with seenIds := ["p1"] }
        { children := [p1img, p2text, p3vid], after := some "c1" }).memes = [p3vid] := by
  refine ⟨?_, ?_, by decide, by decide⟩
  · intro s l h
    simp [fetchMemesSuccess, h, unseenFilter]
  · intro s l p h
    simp [fetchMemesSuccess, h, unseenFilter, List.mem_append, List.mem_filter]
    tauto

/-- Witness for C4: applying the general page equation at the concrete
`readyState` and a one-post page. -/
theorem fetch_filters_then_subtracts_seen_witness :
    readyState.isLoading = false ∧
    (fetchMemesSuccess readyState { children := [p3vid], after := none }).memes =
      readyState.memes ++
        ((Listing.mk [p3vid] none).children.filter isDisplayable).filter
          (fun p => !(readyState.seenIds.contains p.id)) :=
  ⟨by decide, fetch_filters_then_subtracts_seen.1 readyState _ (by decide)⟩

/-- Claim C1 counterexample: the dedup check of `fetchMemes` subtracts only
the seen-id set, never the already-loaded list.  Trace: the first page loads
`[p1, p3]`, the mark-seen effect fires for the active index 0 (marking only
`p1`), and the second page re-serves `p3` — which is appended a second
time, so the loaded id list `["p1", "p3", "p3", "p4"]` has a duplicate. -/
theorem dedup_fails_on_reserved_post :
    (runFeedEvents initialFeedState
      [FeedEvent.fetchOk { children := [p1img, p3vid], after := some "c1" },
       FeedEvent.activeChanged,
       FeedEvent.fetchOk { children := [p3vid, p4img], after := some "c2" }]).memes.map
        PostData.id = ["p1", "p3", "p3", "p4"]
    ∧ ¬ List.Nodup ["p1", "p3", "p3", "p4"] := by
  exact ⟨by decide, by decide⟩

/-- Claim C1 (amended): within one session `fetchNextPage` never appends a
post whose id is in the seen-id set at fetch time; dedup is only against the
seen-id set, so a post already in the loaded list but not yet marked seen
can be appended again. -/
theorem seen_subtraction_only_dedup :
    ∀ (s : FeedState) (l : Listing) (p : PostData),
      p ∈ (fetchMemesSuccess s l).memes → p ∉ s.memes →
      s.seenIds.contains p.id = false := by
  intro s l p hmem hold
  by_cases h : s.isLoading
  · rw [fetchMemesSuccess, if_pos h] at hmem
    exact absurd hmem hold
  · rw [fetchMemesSuccess, if_neg h] at hmem
    simp only [unseenFilter, List.mem_append, List.mem_filter] at hmem
    rcases hmem with h1 | h2
    · exact absurd h1 hold
    · simpa using h2.2

/-- Witness for the amended C1: a post served while its id is absent from
the freshly loaded seen set is appended, and indeed that id was not in the
set. -/
theorem seen_subtraction_only_dedup_witness :
    (seenLoadedStep initialFeedState ["px"]).seenIds.contains p1img.id = false :=
  seen_subtraction_only_dedup (seenLoadedStep initialFeedState ["px"])
    { children := [p1img], after := some "c1" } p1img (by decide) (by decide)

/-- Claim C2 counterexample: the mount effects (`src/unnamed/part_005`
lines 1207–1218) start the signed-in `loadSeenIds` read and the first
`fetchMemes` call in two separate effects and neither awaits the other, so
the completion order where the first page arrives before the seen-id read
is a reachable execution.  In that order the first page is filtered against
the initial empty seen set: `p1` is exposed in the loaded list even though
its id is in the database seen set that arrives a moment later. -/
theorem first_page_can_precede_seen_load :
    (runFeedEvents initialFeedState
      [FeedEvent.fetchOk { children := [p1img], after := some "c1" },
       FeedEvent.seenLoaded ["p1"]]).memes.map PostData.id = ["p1"]
    ∧ (runFeedEvents initialFeedState
        [FeedEvent.fetchOk { children := [p1img], after := some "c1" },
         FeedEvent.seenLoaded ["p1"]]).seenIds = ["p1"] := by
  exact ⟨by decide, by decide⟩

/-- Claim C2 (amended): the seen-id load and the first page fetch are
started together and the fetch does not wait for the load, so the ordering
guarantee only holds for executions in which the seen load completes first;
in those executions every post of the first page whose id the backend set
contains is withheld from the loaded list. -/
theorem seen_load_first_order_filters :
    ∀ (backendIds : List String) (l : Listing) (p : PostData),
      p ∈ (runFeedEvents initialFeedState
        [FeedEvent.seenLoaded backendIds, FeedEvent.fetchOk l]).memes →
      backendIds.contains p.id = false := by
  intro backendIds l p hmem
  simp only [runFeedEvents, List.foldl, feedStep, seenLoadedStep, initialFeedState,
    fetchMemesSuccess, unseenFilter, if_neg Bool.false_ne_true] at hmem
  simp only [List.nil_append, List.mem_filter] at hmem
  simpa using hmem.2

/-- Witness for the amended C2: with the backend set `{p1}` loaded first,
the first page `[p1, p3]` exposes only ids outside the backend set. -/
theorem seen_load_first_order_filters_witness :
    (["p1"] : List String).contains p3vid.id = false :=
  seen_load_first_order_filters ["p1"]
    { children := [p1img, p3vid], after := some "c1" } p3vid (by decide)

/-- Claim C3: consuming a finite cursor sequence whose last page carries a
null cursor leaves the pipeline with `hasMore = false` (Exhausted), even if
every intermediate page contributes zero posts; once `hasMore` is false the
load-more guard is off and no further fetch is issued; and a page with a
non-null cursor keeps `hasMore` true even when fully filtered out. -/
theorem pagination_reaches_exhausted :
    (∀ (s : FeedState) (rs : List Listing), s.isLoading = false →
      ∀ r : Listing, rs.getLast? = some r → r.after = none →
      (runPagination s rs).hasMore = false)
    ∧ (∀ (s : FeedState) (rs : List Listing), s.hasMore = false →
        loadMoreCond s = false ∧ runPagination s rs = s)
    ∧ (∀ (s : FeedState) (l : Listing) (c : String), s.isLoading = false →
        l.after = some c → c.isEmpty = false →
        (fetchMemesSuccess s l).hasMore = true ∧
          (fetchMemesSuccess s l).isLoading = false) := by
  refine ⟨?_, ?_, ?_⟩
  · intro s rs
    induction rs generalizing s with
    | nil =>
      intro _ r hlast
      simp at hlast
    | cons a t ih =>
      cases t with
      | nil =>
        intro hload r hlast hafter
        simp only [List.getLast?_singleton, Option.some.injEq] at hlast
        subst hlast
        rw [runPagination]
        by_cases hm : s.hasMore
        · rw [if_pos hm, runPagination]
          simp [fetchMemesSuccess, hload, hafter, optTruthy]
        · rw [if_neg hm]
          simpa using hm
      | cons b t2 =>
        intro hload r hlast hafter
        rw [runPagination]
        by_cases hm : s.hasMore
        · rw [if_pos hm]
          refine ih (fetchMemesSuccess s a) ?_ r ?_ hafter
          · simp [fetchMemesSuccess, hload]
          · simpa [List.getLast?_cons_cons] using hlast
        · rw [if_neg hm]
          simpa using hm
  · intro s rs h
    refine ⟨by simp [loadMoreCond, h], ?_⟩
    cases rs with
    | nil => rfl
    | cons a t =>
      rw [runPagination, if_neg]
      simp [h]
  · intro s l c hload hafter hc
    constructor <;> simp [fetchMemesSuccess, hload, hafter, optTruthy, hc]

/-- Witness for C3: an intermediate page that contributes nothing but
carries cursor `"c1"`, followed by a final page with a null cursor, ends
with `hasMore = false`. -/
theorem pagination_reaches_exhausted_witness :
    (runPagination initialFeedState
      [{ children := [], after := some "c1" }, { children := [], after := none }]).hasMore
      = false :=
  pagination_reaches_exhausted.1 initialFeedState
    [{ children := [], after := some "c1" }, { children := [], after := none }]
    (by decide) { children := [], after := none } (by decide) rfl

/-- Attempt-count bound for the backoff loop: starting at attempt `i` with
`rem` loop iterations remaining, at most `rem + 1` further attempts are
made. -/
theorem backoffGo_attempts_le {E A : Type} (outcomes : Nat → Except E A) (base : Nat)
    (jit : Nat → Nat) : ∀ (rem i : Nat),
    (backoffGo outcomes base jit i rem).2.1 ≤ i + rem + 1 := by
  intro rem
  induction rem with
  | zero =>
    intro i
    rw [backoffGo]
    cases h : outcomes i <;> simp
  | succ n ih =>
    intro i
    rw [backoffGo]
    cases h : outcomes i with
    | ok v => simp
    | error e =>
      have h2 := ih (i + 1)
      simpa using Nat.le_trans h2 (by omega)

/-- Claim C5 counterexample: `exponentialBackoff(fn, 3, 1000)` runs its loop
for `i = 0, 1, 2, 3` (`i <= maxRetries`), so with every attempt failing it
makes 4 attempts in total — more than the 3 the claim allows. -/
theorem backoff_makes_four_attempts :
    (exponentialBackoff (fun _ => (Except.error () : Except Unit Unit)) 3 1000
      (fun _ => 0)).2.1 = 4
    ∧ ¬((exponentialBackoff (fun _ => (Except.error () : Except Unit Unit)) 3 1000
      (fun _ => 0)).2.1 ≤ 3) := by
  exact ⟨by decide, by decide⟩

/-- Claim C5 (amended): failed fetches are retried with exponential backoff
plus jitter at base delay 1000 ms (delay `1000·2^i + jitter_i` before retry
`i + 1`) and at most 4 attempts are made in total — the initial attempt
plus up to `maxRetries = 3` retries; when every attempt fails the last
error is rethrown to the caller, and the feed's failure path leaves the
already-loaded posts, cursor and seen state unchanged. -/
theorem backoff_retry_contract :
    (∀ (E A : Type) (outcomes : Nat → Except E A) (jit : Nat → Nat),
      (exponentialBackoff outcomes 3 1000 jit).2.1 ≤ 4)
    ∧ (∀ (E A : Type) (errs : Nat → E) (jit : Nat → Nat),
        exponentialBackoff (fun i => (Except.error (errs i) : Except E A)) 3 1000 jit =
          (Except.error (errs 3), 4,
            [1000 * 2 ^ 0 + jit 0, 1000 * 2 ^ 1 + jit 1, 1000 * 2 ^ 2 + jit 2]))
    ∧ (∀ s : FeedState, (fetchMemesFailure s).memes = s.memes ∧
        (fetchMemesFailure s).after = s.after ∧
        (fetchMemesFailure s).seenIds = s.seenIds ∧
        (fetchMemesFailure s).hasMore = s.hasMore) := by
  refine ⟨?_, ?_, ?_⟩
  · intro E A outcomes jit
    simpa using backoffGo_attempts_le outcomes 1000 jit 3 0
  · intro E A errs jit
    simp only [exponentialBackoff, backoffGo]
  · intro s
    by_cases h : s.isLoading <;> simp [fetchMemesFailure, h]

/-- Claim C6 counterexample: a 429 response makes `debouncedFetch` throw,
but the feed's catch block ignores the error, so no cooldown exists: at the
concrete ready state the post-429 state equals the pre-429 state, the
load-more guard still fires, and an immediately following fetch proceeds
and appends posts — `fetchNextPage` is not suppressed for 5 minutes (nor at
all). -/
theorem no_cooldown_after_429 :
    debouncedFetchCheck 429 = some FetchErr.rateLimited
    ∧ fetchMemesFailure readyState = readyState
    ∧ loadMoreCond (fetchMemesFailure readyState) = true
    ∧ (fetchMemesSuccess (fetchMemesFailure readyState)
        { children := [p4img], after := some "c2" }).memes = [p1img, p4img] := by
  exact ⟨by decide, by decide, by decide, by decide⟩

/-- Claim C6 (amended): HTTP 429 throws a dedicated rate-limited error at
the fetch layer (distinguishable from other HTTP errors there), but the
feed pipeline's catch block discards it: the state after any failed fetch
is the input state (no cooldown field exists, nothing distinguishes
throttling from any other failure in feed state), and the next fetch is
gated only by the index/has-more guard, never suppressed by a cooldown. -/
theorem rate_limited_fetch_not_suppressed :
    debouncedFetchCheck 429 = some FetchErr.rateLimited
    ∧ (∀ status : Nat, status ≠ 429 → 299 < status →
        debouncedFetchCheck status = some (FetchErr.httpError status))
    ∧ (∀ s : FeedState, s.isLoading = false → fetchMemesFailure s = s)
    ∧ (∀ s : FeedState, s.isLoading = false →
        loadMoreCond (fetchMemesFailure s) =
          (decide (s.memes.length ≤ s.currentIndex + 3) && s.hasMore)) := by
  refine ⟨by decide, ?_, ?_, ?_⟩
  · intro status h1 h2
    have hb : (status == 429) = false := by simpa using h1
    simp [debouncedFetchCheck, hb, h2]
  · intro s h
    cases s
    simp_all [fetchMemesFailure]
  · intro s h
    have hs : fetchMemesFailure s = s := by
      cases s
      simp_all [fetchMemesFailure]
    rw [hs]
    simp [loadMoreCond, h]

/-- Witness for the amended C6: a 500 response yields a generic HTTP error,
and at the ready state the failure path is the identity with the load-more
guard still live. -/
theorem rate_limited_fetch_not_suppressed_witness :
    debouncedFetchCheck 500 = some (FetchErr.httpError 500)
    ∧ fetchMemesFailure readyState = readyState
    ∧ loadMoreCond (fetchMemesFailure readyState) =
        (decide (readyState.memes.length ≤ readyState.currentIndex + 3) &&
          readyState.hasMore) :=
  ⟨rate_limited_fetch_not_suppressed.2.1 500 (by decide) (by decide),
   rate_limited_fetch_not_suppressed.2.2.1 readyState (by decide),
   rate_limited_fetch_not_suppressed.2.2.2 readyState (by decide)⟩

/-- Claim C7: the sliding-window limiter denies exactly when at least 30 of
the client's recorded timestamps lie inside the last 60 seconds; on an
allowed request the pruned window plus the current timestamp is stored (so
timestamps older than 60 s are discarded and never contribute), and a
client all of whose timestamps are older than 60 s is never denied. -/
theorem isRateLimited_window_contract :
    ∀ (now : Int) (reqs : List Int),
      ((isRateLimited now reqs).1 = true ↔
        30 ≤ (reqs.filter (fun t => now - t < 60000)).length)
      ∧ ((isRateLimited now reqs).1 = false →
          (isRateLimited now reqs).2 =
            reqs.filter (fun t => now - t < 60000) ++ [now])
      ∧ ((∀ t ∈ reqs, 60000 ≤ now - t) → (isRateLimited now reqs).1 = false) := by
  intro now reqs
  by_cases h : 30 ≤ (reqs.filter (fun t => now - t < 60000)).length
  · refine ⟨by simp [isRateLimited, h], by simp [isRateLimited, h], ?_⟩
    intro hall
    have hnil : reqs.filter (fun t => now - t < 60000) = [] := by
      rw [List.filter_eq_nil_iff]
      intro t ht
      have := hall t ht
      simpa using by omega
    rw [hnil] at h
    simp at h
  · exact ⟨by simp [isRateLimited, h], by simp [isRateLimited, h],
      fun _ => by simp [isRateLimited, h]⟩

/-- Witness for C7: at `now = 100000`, a single 50-second-old timestamp is
pruned-and-kept with the new timestamp appended, and a single minute-old
timestamp never causes a denial. -/
theorem isRateLimited_window_contract_witness :
    ((isRateLimited 100000 [50000]).2 =
      ([50000] : List Int).filter (fun t => 100000 - t < 60000) ++ [100000])
    ∧ (isRateLimited 100000 [1]).1 = false :=
  ⟨(isRateLimited_window_contract 100000 [50000]).2.1 (by decide),
   (isRateLimited_window_contract 100000 [1]).2.2 (by decide)⟩

/-- Key match for a like record: the Mongo filter `{userId, memeId}`. -/
def likeKeyMatch (u mid : String) (r : LikeRecord) : Bool :=
  r.userId == u && r.memeId == mid

/-- Under the at-most-one-per-key invariant, `updateOneLike` leaves exactly
the freshly written record at the key. -/
theorem updateOneLike_filter_key (u mid : String) (meme : MemeObj) (now : Nat) :
    ∀ coll : List LikeRecord,
      (coll.filter (likeKeyMatch u mid)).length ≤ 1 →
      (updateOneLike coll u mid meme now).filter (likeKeyMatch u mid) =
        [⟨u, mid, meme, now⟩] := by
  intro coll
  induction coll with
  | nil =>
    intro _
    simp [updateOneLike, likeKeyMatch, List.filter]
  | cons r rs ih =>
    intro hinv
    by_cases hm : likeKeyMatch u mid r
    · have hm2 : (r.userId == u && r.memeId == mid) = true := hm
      rw [updateOneLike, if_pos hm2]
      have hfil : (r :: rs).filter (likeKeyMatch u mid) =
          r :: rs.filter (likeKeyMatch u mid) := by
        simp [List.filter, hm]
      rw [hfil] at hinv
      have hlen : (rs.filter (likeKeyMatch u mid)).length = 0 := by
        simpa using hinv
      have hnil : rs.filter (likeKeyMatch u mid) = [] :=
        List.length_eq_zero.mp hlen
      simp [List.filter, likeKeyMatch, hnil]
    · have hm2 : (r.userId == u && r.memeId == mid) = false := by
        simpa [likeKeyMatch] using hm
      rw [updateOneLike, if_neg (by simp [hm2])]
      have hfil : (r :: rs).filter (likeKeyMatch u mid) =
          rs.filter (likeKeyMatch u mid) := by
        simp [List.filter, likeKeyMatch, hm2]
      rw [hfil] at hinv
      have := ih hinv
      simp [List.filter, likeKeyMatch, hm2, this]

/-- Claim C8: under the store's at-most-one-record-per-`(userId, postId)`
invariant, upserting a like twice for the same key leaves exactly one
record at that key, and its snapshot and `createdAt` are those written by
the second call. -/
theorem upsertLike_idempotent_last_write_wins :
    ∀ (coll : List LikeRecord) (u mid : String) (d1 d2 : MemeObj) (t1 t2 : Nat),
      (coll.filter (likeKeyMatch u mid)).length ≤ 1 →
      (updateOneLike (updateOneLike coll u mid d1 t1) u mid d2 t2).filter
        (likeKeyMatch u mid) = [⟨u, mid, d2, t2⟩] := by
  intro coll u mid d1 d2 t1 t2 hinv
  have h1 := updateOneLike_filter_key u mid d1 t1 coll hinv
  have h2 : ((updateOneLike coll u mid d1 t1).filter (likeKeyMatch u mid)).length ≤ 1 := by
    rw [h1]; simp
  exact updateOneLike_filter_key u mid d2 t2 (updateOneLike coll u mid d1 t1) h2

/-- Witness for C8: double-liking `p1` from an empty likes collection keeps
one record carrying the second call's snapshot (`p4img` payload) and
timestamp. -/
theorem upsertLike_idempotent_last_write_wins_witness :
    (updateOneLike
        (updateOneLike [] "u1" "p1" ⟨some "p1", false, none, "snap1"⟩ 5)
        "u1" "p1" ⟨some "p1", false, none, "snap2"⟩ 9).filter
      (likeKeyMatch "u1" "p1") =
      [⟨"u1", "p1", ⟨some "p1", false, none, "snap2"⟩, 9⟩] :=
  upsertLike_idempotent_last_write_wins [] "u1" "p1"
    ⟨some "p1", false, none, "snap1"⟩ ⟨some "p1", false, none, "snap2"⟩ 5 9
    (by decide)

/-- Claim C9: marking the same post seen twice yields one record.  On the
client the mark-seen effect is idempotent and skips ids already in the
local seen set (nothing is re-queued); on the server each `$setOnInsert`
upsert leaves a matching collection untouched, and under the
at-most-one-per-key invariant two batch upserts of the same id leave
exactly one `SeenRecord` for the key, keeping the first write's
`createdAt`. -/
theorem seen_mark_idempotent :
    (∀ s : FeedState, markActiveStep (markActiveStep s) = markActiveStep s)
    ∧ (∀ (s : FeedState) (m : PostData), s.memes[s.currentIndex]? = some m →
        m.id ∈ s.seenIds → markActiveStep s = s)
    ∧ (∀ (coll : List SeenRecord) (u fk mid : String) (t : Nat),
        coll.any (seenKeyMatch u fk mid) = true →
        setOnInsertSeen coll u fk mid t = coll)
    ∧ (∀ (coll : List SeenRecord) (u fk mid : String) (t1 t2 : Nat),
        coll.filter (seenKeyMatch u fk mid) = [] →
        (upsertSeenBatch (upsertSeenBatch coll u fk [mid] t1) u fk [mid] t2).filter
          (seenKeyMatch u fk mid) = [⟨u, fk, mid, t1⟩]) := by
  refine ⟨?_, ?_, ?_, ?_⟩
  · intro s
    cases hget : s.memes[s.currentIndex]? with
    | none => simp [markActiveStep, hget]
    | some m =>
      by_cases hemp : m.id.isEmpty
      · simp [markActiveStep, hget, hemp]
      · by_cases hmem : m.id ∈ s.seenIds
        · simp [markActiveStep, hget, hemp, hmem]
        · have hs2 : markActiveStep s =
              { s with seenIds := s.seenIds ++ [m.id],
                       pendingSeen := s.pendingSeen ++ [m.id] } := by
            simp [markActiveStep, hget, hemp, hmem]
          rw [hs2]
          simp [markActiveStep, hget, hemp]
  · intro s m hget hmem
    by_cases hemp : m.id.isEmpty <;> simp [markActiveStep, hget, hemp, hmem]
  · intro coll u fk mid t hany
    simp [setOnInsertSeen, hany]
  · intro coll u fk mid t1 t2 hnil
    have hall : ∀ x ∈ coll, ¬seenKeyMatch u fk mid x = true :=
      List.filter_eq_nil_iff.mp hnil
    have hany : ¬coll.any (seenKeyMatch u fk mid) = true := by
      rw [List.any_eq_true]
      rintro ⟨x, hx, hpx⟩
      exact hall x hx hpx
    have h1 : setOnInsertSeen coll u fk mid t1 = coll ++ [⟨u, fk, mid, t1⟩] := by
      rw [setOnInsertSeen, if_neg hany]
    have hkey : seenKeyMatch u fk mid ⟨u, fk, mid, t1⟩ = true := by
      simp [seenKeyMatch]
    have hany2 : (coll ++ [(⟨u, fk, mid, t1⟩ : SeenRecord)]).any
        (seenKeyMatch u fk mid) = true := by
      rw [List.any_eq_true]
      exact ⟨⟨u, fk, mid, t1⟩, by simp, hkey⟩
    have h2 : setOnInsertSeen (coll ++ [⟨u, fk, mid, t1⟩]) u fk mid t2 =
        coll ++ [⟨u, fk, mid, t1⟩] := by
      rw [setOnInsertSeen, if_pos hany2]
    have e1 : upsertSeenBatch coll u fk [mid] t1 = setOnInsertSeen coll u fk mid t1 := rfl
    have e2 : upsertSeenBatch (coll ++ [⟨u, fk, mid, t1⟩]) u fk [mid] t2 =
        setOnInsertSeen (coll ++ [⟨u, fk, mid, t1⟩]) u fk mid t2 := rfl
    rw [e1, h1, e2, h2, List.filter_append, hnil]
    simp [hkey]

/-- Witness for C9: marking `p1` seen twice from `readyState` equals
marking it once; a matching record blocks a re-insert; and two batch
upserts of `"p1"` into an empty collection leave exactly the first-written
record. -/
theorem seen_mark_idempotent_witness :
    markActiveStep (markActiveStep readyState) = markActiveStep readyState
    ∧ setOnInsertSeen [⟨"u1", "fk1", "p1", 3⟩] "u1" "fk1" "p1" 9 =
        [⟨"u1", "fk1", "p1", 3⟩]
    ∧ (upsertSeenBatch (upsertSeenBatch [] "u1" "fk1" ["p1"] 3) "u1" "fk1" ["p1"] 9).filter
        (seenKeyMatch "u1" "fk1" "p1") = [⟨"u1", "fk1", "p1", 3⟩] :=
  ⟨seen_mark_idempotent.1 readyState,
   seen_mark_idempotent.2.2.1 [⟨"u1", "fk1", "p1", 3⟩] "u1" "fk1" "p1" 9 (by decide),
   seen_mark_idempotent.2.2.2 [] "u1" "fk1" "p1" 3 9 (by decide)⟩

/-- Claim C10: a `POST /likes` request with a missing `userId`, a missing
`meme`, or a meme object that carries neither a top-level `id` nor a nested
`data.id` is answered with HTTP 400 and the likes collection is returned
unchanged. -/
theorem likesPost_validation_rejects :
    ∀ (coll : List LikeRecord) (now : Nat),
      (∀ meme : Option MemeObj, handleLikesPost coll none meme now = (400, coll))
      ∧ (∀ userId : Option String, handleLikesPost coll userId none now = (400, coll))
      ∧ (∀ (userId : Option String) (m : MemeObj), m.id = none →
          (m.hasData = false ∨ m.dataId = none) →
          handleLikesPost coll userId (some m) now = (400, coll)) := by
  intro coll now
  refine ⟨?_, ?_, ?_⟩
  · intro meme
    simp [handleLikesPost, optTruthy]
  · intro userId
    simp [handleLikesPost]
  · intro userId m hid hdata
    have hmid : memeIdOf m = none := by
      rcases hdata with h | h
      · simp [memeIdOf, hid, optTruthy, h]
      · simp [memeIdOf, hid, optTruthy, h]
    by_cases hu : optTruthy userId
    · simp [handleLikesPost, hu]
      cases userId with
      | none => simp [optTruthy] at hu
      | some u => simp [hmid]
    · simp [handleLikesPost, hu]

/-- Witness for C10: a meme with no top-level id and no nested data id is
rejected with 400 and the one-record collection is untouched. -/
theorem likesPost_validation_rejects_witness :
    handleLikesPost [⟨"u1", "p1", ⟨some "p1", false, none, "snap"⟩, 1⟩]
        (some "u1") (some ⟨none, true, none, "snap2"⟩) 7 =
      (400, [⟨"u1", "p1", ⟨some "p1", false, none, "snap"⟩, 1⟩]) :=
  (likesPost_validation_rejects [⟨"u1", "p1", ⟨some "p1", false, none, "snap"⟩, 1⟩]
    7).2.2 (some "u1") ⟨none, true, none, "snap2"⟩ rfl (Or.inr rfl)
